import Mathlib

/-!
Verification of `src/maya/render_view.cc` of niepce-maya.

A shallow embedding of the scene-to-renderer conversion of the Maya plugin
(`NiepceRenderView::GetResolution`, `ConstructSceneForNiepce`,
`GetRenderableCamera`, `CreateTriangles`) and the properties of it that the
specification states.

Conventions of the embedding

* `niepce::Float` is `float` or `double` depending on a build flag; the code
  only copies such values, so the scalar type is a parameter `F`.
* `uint32_t`, `unsigned` and `size_t` values are natural numbers.  Unsigned
  32-bit expressions are reduced modulo `2^32` where the source computes them
  (`3 * num_primitives`).  `size_t` index expressions are not reduced: a buffer
  that exists in a 64-bit address space has fewer than `2^64` entries, and the
  loops stop at the first read past the end of a buffer.
* `int` expressions are checked against `INT_MAX`: signed overflow has no
  defined result in C++ and is the fault `Fault.signedOverflow`.
* A read past the end of a buffer has no defined result either and is the fault
  `Fault.readOutOfRange`.
* Calls that only log (`MGlobal::displayInfo`) are left out.
-/

set_option linter.unusedVariables false

namespace plugins

/-- Ways in which the C++ code leaves defined behaviour (or throws). -/
inductive Fault where
  /-- A read through a raw pointer or `operator[]` past the end of the buffer. -/
  | readOutOfRange
  /-- An `int` expression whose value does not fit in 32 signed bits. -/
  | signedOverflow
  /-- The exception `std::out_of_range` thrown by `std::vector::at`. -/
  | atOutOfRange
  deriving DecidableEq

/-- Largest value of the 32-bit `int` type. -/
def INT_MAX : Nat := 2147483647

/-- Number of values of a 32-bit unsigned integer. -/
def UINT32_MOD : Nat := 4294967296

/-- Status value `MStatus` of the Maya API, reduced to the two values the code uses. -/
inductive MStatus where
  | kSuccess
  | kFailure
  deriving DecidableEq

end plugins

namespace niepce

/-- Modelled from the spec: `niepce::Point3f` is declared outside `src/`; a 3-component
point built from its three scalars (§4.5, "one 3-component point per vertex"). -/
structure Point3f (F : Type) where
  x : F
  y : F
  z : F
  deriving DecidableEq

/-- Modelled from the spec: `niepce::Normal3f` is declared outside `src/`; a 3-component
normal. -/
structure Normal3f (F : Type) where
  x : F
  y : F
  z : F
  deriving DecidableEq

/-- Modelled from the spec: `niepce::Point2f` is declared outside `src/`; a 2-component
UV coordinate. -/
structure Point2f (F : Type) where
  x : F
  y : F
  deriving DecidableEq

/-- Modelled from the spec: the `SharedMesh` record of §3, which `niepce::CreateTriangleMesh`
(declared in `shape/triangle.h`, outside `src/`) builds from its seven arguments: the four
counts and the three arrays, a null array pointer being `none`. -/
structure TriangleMesh (F : Type) where
  num_faces : Nat
  num_positions : Nat
  num_normals : Nat
  num_texcoords : Nat
  positions : List (Point3f F)
  normals : Option (List (Normal3f F))
  texcoords : Option (List (Point2f F))
  deriving DecidableEq

/-- Three `uint32_t` indices, `std::array <uint32_t, 3>`. -/
structure Index3 where
  i0 : Nat
  i1 : Nat
  i2 : Nat
  deriving DecidableEq

/-- Modelled from the spec: the `Triangle` record of §3, which `niepce::CreateTriangle`
(declared in `shape/triangle.h`, outside `src/`) builds: the mesh it refers to and the three
index triples for position, normal and UV corners. -/
structure Triangle (F : Type) where
  mesh : TriangleMesh F
  p_idx : Index3
  n_idx : Index3
  t_idx : Index3
  deriving DecidableEq

/-- A `niepce::ShapePtr`: a shared pointer that is null or points at a triangle. -/
abbrev ShapePtr (F : Type) := Option (Triangle F)

/-- Modelled from the spec: `niepce::CreateTriangleMesh` (outside `src/`) stores its
arguments in a `SharedMesh` record. -/
def CreateTriangleMesh {F : Type} (num_faces num_positions num_normals num_texcoords : Nat)
    (positions : List (Point3f F)) (normals : Option (List (Normal3f F)))
    (texcoords : Option (List (Point2f F))) : TriangleMesh F :=
  { num_faces := num_faces, num_positions := num_positions, num_normals := num_normals,
    num_texcoords := num_texcoords, positions := positions, normals := normals,
    texcoords := texcoords }

/-- Modelled from the spec: `niepce::CreateTriangle` (outside `src/`) returns a non-null
pointer to a triangle holding the mesh reference and the three index triples. -/
def CreateTriangle {F : Type} (mesh : TriangleMesh F) (p_idx n_idx t_idx : Index3) :
    ShapePtr F :=
  some { mesh := mesh, p_idx := p_idx, n_idx := n_idx, t_idx := t_idx }

end niepce

namespace plugins

open niepce

/-! ## `CreateTriangles` (lines 257-326) -/

/-- The read `positions[j]` through the raw pointer `positions`, whose buffer is the list. -/
def readScalar {F : Type} (positions : List F) (j : Nat) : Except Fault F :=
  match positions[j]? with
  | some v => .ok v
  | none => .error .readOutOfRange

/-- The loop of lines 275-281, `for (size_t i = 0; i < num_positions; ++i)`, started at
counter `i` with `remaining = num_positions - i` iterations to go; the result lists the
points assigned to `positions_ptr[i]`, `positions_ptr[i + 1]`, ... in this order. -/
def positionsLoop {F : Type} (positions : List F) : (i remaining : Nat) →
    Except Fault (List (Point3f F))
  | _, 0 => .ok []
  | i, remaining + 1 => do
    let x ← readScalar positions (3 * i + 0)
    let y ← readScalar positions (3 * i + 1)
    let z ← readScalar positions (3 * i + 2)
    let p : Point3f F := { x := x, y := y, z := z }
    let rest ← positionsLoop positions (i + 1) remaining
    pure (p :: rest)

/-- The index expression `3 * n + k` of lines 313-315, computed in `int`. -/
def intIndex (n k : Nat) : Except Fault Nat :=
  if 3 * n + k ≤ INT_MAX then .ok (3 * n + k) else .error .signedOverflow

/-- The read `v[j]` of a `std::vector <uint32_t>` with `operator[]`, which does not check
the bound. -/
def vectorRead (v : List Nat) (j : Nat) : Except Fault Nat :=
  match v[j]? with
  | some x => .ok x
  | none => .error .readOutOfRange

/-- The read `position_indices[3 * n + k]`: the index is computed in `int`, then
`operator[]` reads. -/
def readIndex (position_indices : List Nat) (n k : Nat) : Except Fault Nat := do
  let j ← intIndex n k
  vectorRead position_indices j

/-- The assignment `triangles->at (n) = shape`: `at` checks the bound. -/
def vectorAtPut {F : Type} (triangles : List (ShapePtr F)) (n : Nat) (shape : ShapePtr F) :
    Except Fault (List (ShapePtr F)) :=
  if n < triangles.length then .ok (triangles.set n shape) else .error .atOutOfRange

/-- The increment `++n` of the `int` counter. -/
def intIncrement (n : Nat) : Except Fault Nat :=
  if n + 1 ≤ INT_MAX then .ok (n + 1) else .error .signedOverflow

/-- The loop of lines 310-325, `for (int n = 0; n < num_faces; ++n)`, started at counter
`n` with `remaining = num_faces - n` iterations to go, on the vector `triangles`. -/
def trianglesLoop {F : Type} (mesh : TriangleMesh F) (position_indices : List Nat) :
    (n remaining : Nat) → List (ShapePtr F) → Except Fault (List (ShapePtr F))
  | _, 0, triangles => .ok triangles
  | n, remaining + 1, triangles => do
    let p0 ← readIndex position_indices n 0
    let p1 ← readIndex position_indices n 1
    let p2 ← readIndex position_indices n 2
    let p_idx_array : Index3 := { i0 := p0, i1 := p1, i2 := p2 }
    let n_idx_array : Index3 := { i0 := 0, i1 := 0, i2 := 0 }
    let t_idx_array : Index3 := { i0 := 0, i1 := 0, i2 := 0 }
    let triangles1 ← vectorAtPut triangles n
      (CreateTriangle mesh p_idx_array n_idx_array t_idx_array)
    let n1 ← intIncrement n
    trianglesLoop mesh position_indices n1 remaining triangles1

/-- Lines 273-304 of `CreateTriangles`: the conversion of the positions and the
construction of the mesh.  Both `if (normals != nullptr)` and `if (texcoords != nullptr)`
have an empty body, so `normals_ptr` and `texcoords_ptr` stay null. -/
def CreateTriangles.mesh {F : Type} (num_faces num_positions num_normals num_texcoords : Nat)
    (positions : List F) (normals texcoords : Option (List F)) :
    Except Fault (TriangleMesh F) := do
  let positions_ptr ← positionsLoop positions 0 num_positions
  let normals_ptr : Option (List (Normal3f F)) := none
  let texcoords_ptr : Option (List (Point2f F)) := none
  pure (CreateTriangleMesh num_faces num_positions num_normals num_texcoords
    positions_ptr normals_ptr texcoords_ptr)

/-- `NiepceRenderView::CreateTriangles`.  The first argument is the content of `*triangles`
on entry, the result its content on return. -/
def CreateTriangles {F : Type} (triangles : List (ShapePtr F))
    (num_faces num_positions num_normals num_texcoords : Nat)
    (positions : List F) (normals texcoords : Option (List F))
    (position_indices normal_indices texcoord_indices : List Nat) :
    Except Fault (List (ShapePtr F)) := do
  let mesh ← CreateTriangles.mesh num_faces num_positions num_normals num_texcoords
    positions normals texcoords
  let triangles0 : List (ShapePtr F) := List.replicate num_faces none
  trianglesLoop mesh position_indices 0 num_faces triangles0

/-! ## `GetResolution` (lines 65-93) -/

/-- A dependency node as `GetResolution` reads it: the values `MPlug::asInt` returns for
the plugs `width` and `height` (values of the 32-bit `int` type). -/
structure ResolutionNode where
  width : Int
  height : Int
  deriving DecidableEq

/-- Conversion of an `int` to `uint32_t`, as in `width = plug_width.asInt ()`. -/
def toUInt32 (v : Int) : Nat := (v % 4294967296).toNat

/-- `NiepceRenderView::GetResolution`; `list` is the selection list that
`MGlobal::getSelectionListByName ("defaultResolution", list)` fills. -/
def GetResolution (list : List ResolutionNode) : Nat × Nat :=
  let width : Nat := 960
  let height : Nat := 540
  if h : list.length > 0 then
    let node := list[0]
    (toUInt32 node.width, toUInt32 node.height)
  else
    (width, height)

/-! ## `GetRenderableCamera` (lines 234-253) -/

/-- A camera node as `GetRenderableCamera` reads it: the value `asBool` returns for the plug
`renderable`, and the placement `camera.dagPath ()`. -/
structure CameraNode (P : Type) where
  renderable : Bool
  dagPath : P
  deriving DecidableEq

/-- The loop of `GetRenderableCamera` with the state of the iterator made explicit: the
iterator `camera_nodes` is the list of the nodes from the current one on (`isDone` is
emptiness, `thisNode` the head, `next` the tail).  The result is the returned status, the
value of `dag` on return and the iterator at the moment of the return. -/
def GetRenderableCamera.loop {P : Type} :
    List (CameraNode P) → P → MStatus × P × List (CameraNode P)
  | [], dag => (MStatus.kFailure, dag, [])
  | camera :: rest, dag =>
    if camera.renderable then
      (MStatus.kSuccess, camera.dagPath, camera :: rest)
    else
      GetRenderableCamera.loop rest dag

/-- `NiepceRenderView::GetRenderableCamera`: the returned status and the value of the
reference parameter `dag` on return. -/
def GetRenderableCamera {P : Type} (camera_nodes : List (CameraNode P)) (dag : P) :
    MStatus × P :=
  let r := GetRenderableCamera.loop camera_nodes dag
  (r.1, r.2.1)

/-! ## `ConstructSceneForNiepce` (lines 97-230) -/

/-- A set member as `ConstructSceneForNiepce` sees it through `MHWRender::MGeometryExtractor`:
the status of the construction of the extractor, the two counts, the stride of the position
descriptor, and the content the two `populate` calls leave in a buffer of a given length
(the calls write through a pointer, so the length of the buffer is what the caller
allocated; what a call does beyond the end of a too-short buffer is not modelled). -/
structure GeometryInstance (F : Type) where
  status : MStatus
  vertexCount : Nat
  primitiveCount : Nat
  stride : Nat
  populateVertexBuffer : (len : Nat) → { buf : List F // buf.length = len }
  populateIndexBuffer : (len : Nat) → { buf : List Nat // buf.length = len }

/-- A shading engine: the members of its set.  The loop over its materials only logs. -/
structure ShadingEngine (F : Type) where
  members : List (GeometryInstance F)

/-- What the statement `NIEPCE_CHECK_MSTATUS (status, msg)` does to the control flow. -/
inductive CheckResult where
  /-- Execution goes on with the next statement. -/
  | proceed
  /-- The rest of the body is skipped for this member. -/
  | skipInstance
  deriving DecidableEq

/-- Modelled from the spec: the body of `NIEPCE_CHECK_MSTATUS` is in `defines.h`, outside
`src/`.  §7: on an extraction failure "this instance's geometry is skipped; conversion
continues with remaining instances; failure is reported via diagnostic, not fatal to the
whole pass". -/
def NIEPCE_CHECK_MSTATUS (status : MStatus) : CheckResult :=
  match status with
  | MStatus.kSuccess => CheckResult.proceed
  | MStatus.kFailure => CheckResult.skipInstance

/-- Length of `positions`, `new niepce::Float [num_vertices * position_descriptor.stride ()]`
(line 200), the product being computed in 32-bit unsigned arithmetic. -/
def positionsLength (num_vertices stride : Nat) : Nat :=
  (num_vertices * stride) % UINT32_MOD

/-- Length of `indices`, `std::vector <uint32_t> indices (3 * num_primitives)` (line 207),
the product being computed in 32-bit unsigned arithmetic. -/
def indicesLength (num_primitives : Nat) : Nat :=
  (3 * num_primitives) % UINT32_MOD

/-- The vector `indices` of a member after `populateIndexBuffer` (lines 207-208). -/
def memberIndices {F : Type} (inst : GeometryInstance F) : List Nat :=
  let num_primitives := inst.primitiveCount % UINT32_MOD
  (inst.populateIndexBuffer (indicesLength num_primitives)).val

/-- The buffer `positions` of a member after `populateVertexBuffer` (lines 200-203). -/
def memberPositions {F : Type} (inst : GeometryInstance F) : List F :=
  let num_vertices := inst.vertexCount % UINT32_MOD
  (inst.populateVertexBuffer (positionsLength num_vertices inst.stride)).val

/-- Lines 194-225 for one member whose extractor was built: the content of the local vector
`triangles` after the call of `CreateTriangles` at lines 211-222.  The status that
`populateVertexBuffer` returns is stored in `status` and never read. -/
def memberTriangles {F : Type} (inst : GeometryInstance F) :
    Except Fault (List (ShapePtr F)) :=
  let num_vertices := inst.vertexCount % UINT32_MOD
  let num_primitives := inst.primitiveCount % UINT32_MOD
  let positions := memberPositions inst
  let indices := memberIndices inst
  let triangles : List (ShapePtr F) := []
  CreateTriangles triangles num_primitives num_vertices 0 0 positions none none
    indices [] []

/-- The body of the loop over the members (lines 131-226) for one member: `none` when the
member is skipped, the local vector `triangles` at the end of the body otherwise. -/
def processMember {F : Type} (inst : GeometryInstance F) :
    Except Fault (Option (List (ShapePtr F))) :=
  match NIEPCE_CHECK_MSTATUS inst.status with
  | CheckResult.skipInstance => .ok none
  | CheckResult.proceed => do
    let triangles ← memberTriangles inst
    pure (some triangles)

/-- The loop `for (int m = 0; m < members.length (); ++m)` from counter `m` on, `members`
being the members not yet visited.  `built` is a ghost variable: the vector `triangles` is
local to the body and is destroyed at the end of each iteration; `built` records, in order,
the content each of them had. -/
def membersLoop {F : Type} : Nat → List (GeometryInstance F) → List (List (ShapePtr F)) →
    Except Fault (List (List (ShapePtr F)))
  | _, [], built => .ok built
  | m, inst :: rest, built => do
    let r ← processMember inst
    let built1 := match r with
      | none => built
      | some triangles => built ++ [triangles]
    let m1 ← intIncrement m
    membersLoop m1 rest built1

/-- The loop over the shading engines (lines 105-227), with the ghost variable `built`. -/
def enginesLoop {F : Type} : List (ShadingEngine F) → List (List (ShapePtr F)) →
    Except Fault (List (List (ShapePtr F)))
  | [], built => .ok built
  | engine :: rest, built => do
    let built1 ← membersLoop 0 engine.members built
    enginesLoop rest built1

/-- The vectors of triangles that `ConstructSceneForNiepce` builds in its iterations, in
order (ghost: none of them is alive when the function returns). -/
def ConstructSceneForNiepce.built {F : Type} (scene : List (ShadingEngine F)) :
    Except Fault (List (List (ShapePtr F))) :=
  enginesLoop scene []

/-- `NiepceRenderView::ConstructSceneForNiepce`: its result is the status of line 229. -/
def ConstructSceneForNiepce {F : Type} (scene : List (ShadingEngine F)) :
    Except Fault MStatus := do
  let _ ← enginesLoop scene []
  pure MStatus.kSuccess

/-- The members of all shading engines of a scene, in the order the pass visits them. -/
def sceneInstances {F : Type} (scene : List (ShadingEngine F)) : List (GeometryInstance F) :=
  scene.flatMap (fun engine => engine.members)

/-- A buffer of length `len` that holds `data`, cut or padded with `pad` to the length of
the buffer; used to write down concrete extractor results. -/
def fillBuffer {α : Type} (pad : α) (data : List α) (len : Nat) :
    { buf : List α // buf.length = len } :=
  ⟨(data ++ List.replicate len pad).take len, by simp⟩

/-- The triangle that one iteration of the loop of lines 310-325 stores at `triangles->at (n)`
when its three reads succeed. -/
def builtTriangle {F : Type} (mesh : TriangleMesh F) (position_indices : List Nat) (n : Nat) :
    ShapePtr F :=
  CreateTriangle mesh
    { i0 := position_indices.getD (3 * n + 0) 0, i1 := position_indices.getD (3 * n + 1) 0,
      i2 := position_indices.getD (3 * n + 2) 0 }
    { i0 := 0, i1 := 0, i2 := 0 } { i0 := 0, i1 := 0, i2 := 0 }

/-- A set member whose extractor reports 3 vertices and 1431655766 triangles and writes
zeros: the smallest primitive count for which `3 * num_primitives` leaves 32 bits. -/
def manyPrimitives : GeometryInstance Int :=
  { status := MStatus.kSuccess, vertexCount := 3, primitiveCount := 1431655766, stride := 3,
    populateVertexBuffer := fillBuffer 0 [], populateIndexBuffer := fillBuffer 0 [] }

/-- Sizes of an extraction for which the call of `CreateTriangles` at lines 212-222 stays
within defined behaviour: the buffer `positions` holds three scalars for each vertex, and
`3 * num_primitives` is in the range of the `int` counter of `CreateTriangles`. -/
def extractionFits {F : Type} (inst : GeometryInstance F) : Prop :=
  3 * (inst.vertexCount % UINT32_MOD) ≤
      positionsLength (inst.vertexCount % UINT32_MOD) inst.stride ∧
    3 * (inst.primitiveCount % UINT32_MOD) ≤ INT_MAX + 1

instance extractionFits.decidable {F : Type} (inst : GeometryInstance F) :
    Decidable (extractionFits inst) := by
  unfold extractionFits
  infer_instance

/-- A set member for which the construction of the geometry extractor fails. -/
def failingMember : GeometryInstance Int :=
  { status := MStatus.kFailure, vertexCount := 0, primitiveCount := 0, stride := 3,
    populateVertexBuffer := fillBuffer 0 [], populateIndexBuffer := fillBuffer 0 [] }

/-- A set member that is one triangle over three vertices, with the given index buffer. -/
def triangleMember (indices : List Nat) : GeometryInstance Int :=
  { status := MStatus.kSuccess, vertexCount := 3, primitiveCount := 1, stride := 3,
    populateVertexBuffer := fillBuffer 0 [0, 0, 0, 1, 0, 0, 0, 1, 0],
    populateIndexBuffer := fillBuffer 0 indices }

/-- A scene of two shading engines and three set members, the second of which fails. -/
def sampleScene (first last : List Nat) : List (ShadingEngine Int) :=
  [{ members := [triangleMember first, failingMember] },
   { members := [triangleMember last] }]

/-- The mesh of a `triangleMember`. -/
def sampleMesh : TriangleMesh Int :=
  { num_faces := 1, num_positions := 3, num_normals := 0, num_texcoords := 0,
    positions := [⟨0, 0, 0⟩, ⟨1, 0, 0⟩, ⟨0, 1, 0⟩], normals := none, texcoords := none }

/-! ## Properties of `CreateTriangles` -/

theorem readScalar_ok {F : Type} (positions : List F) (j : Nat) (h : j < positions.length) :
    readScalar positions j = .ok positions[j] := by
  simp [readScalar, List.getElem?_eq_getElem h]

theorem readScalar_out {F : Type} (positions : List F) (j : Nat) (h : positions.length ≤ j) :
    readScalar positions j = .error Fault.readOutOfRange := by
  simp [readScalar, List.getElem?_eq_none h]

theorem positionsLoop_ok {F : Type} (positions : List F) :
    ∀ (k i : Nat) (hlen : 3 * (i + k) ≤ positions.length),
      ∃ pts, positionsLoop positions i k = .ok pts ∧ pts.length = k ∧
        ∀ (m : Nat) (hm : m < k),
          pts[m]? = some { x := positions[3 * (i + m)], y := positions[3 * (i + m) + 1],
                           z := positions[3 * (i + m) + 2] } := by
  intro k
  induction k with
  | zero =>
    intro i _
    exact ⟨[], rfl, rfl, fun m hm => absurd hm (Nat.not_lt_zero m)⟩
  | succ k ih =>
    intro i hlen
    obtain ⟨rest, hrest, hlenrest, hget⟩ := ih (i + 1) (by omega)
    have h0 : 3 * i + 0 < positions.length := by omega
    have h1 : 3 * i + 1 < positions.length := by omega
    have h2 : 3 * i + 2 < positions.length := by omega
    refine ⟨{ x := positions[3 * i + 0], y := positions[3 * i + 1],
              z := positions[3 * i + 2] } :: rest, ?_, by simp [hlenrest], ?_⟩
    · simp only [positionsLoop, readScalar_ok positions _ h0, readScalar_ok positions _ h1,
        readScalar_ok positions _ h2, hrest, bind, Except.bind, pure, Except.pure]
    · intro m hm
      cases m with
      | zero => simp
      | succ m =>
        have := hget m (by omega)
        simp only [List.getElem?_cons_succ, this]
        have e : 3 * (i + 1 + m) = 3 * (i + (m + 1)) := by ring
        simp [e]

theorem readIndex_ok (position_indices : List Nat) (n k : Nat) (hk : 3 * n + k ≤ INT_MAX)
    (h : 3 * n + k < position_indices.length) :
    readIndex position_indices n k = .ok (position_indices.getD (3 * n + k) 0) := by
  simp [readIndex, intIndex, vectorRead, hk, bind, Except.bind, List.getElem?_eq_getElem h,
    List.getD_eq_getElem?_getD]

theorem readIndex_overflow (position_indices : List Nat) (n k : Nat)
    (hk : INT_MAX < 3 * n + k) :
    readIndex position_indices n k = .error Fault.signedOverflow := by
  simp [readIndex, intIndex, Nat.not_le.mpr hk, bind, Except.bind]

theorem readIndex_out (position_indices : List Nat) (n k : Nat) (hk : 3 * n + k ≤ INT_MAX)
    (h : position_indices.length ≤ 3 * n + k) :
    readIndex position_indices n k = .error Fault.readOutOfRange := by
  simp [readIndex, intIndex, vectorRead, hk, bind, Except.bind, List.getElem?_eq_none h]

theorem take_set_succ {α : Type} (l : List α) (n : Nat) (a : α) (h : n < l.length) :
    (l.set n a).take (n + 1) = l.take n ++ [a] := by
  induction l generalizing n with
  | nil => simp at h
  | cons x xs ih =>
    cases n with
    | zero => simp
    | succ n =>
      simp only [List.length_cons, Nat.add_lt_add_iff_right] at h
      simp [ih n h]

theorem trianglesLoop_ok {F : Type} (mesh : TriangleMesh F) (position_indices : List Nat) :
    ∀ (k n : Nat) (triangles : List (ShapePtr F)),
      triangles.length = n + k → 3 * (n + k) ≤ position_indices.length →
      3 * (n + k) ≤ INT_MAX + 1 →
      trianglesLoop mesh position_indices n k triangles =
        .ok (triangles.take n ++
          (List.range' n k).map (builtTriangle mesh position_indices)) := by
  intro k
  induction k with
  | zero =>
    intro n triangles hlen _ _
    simp only [Nat.add_zero] at hlen
    simp [trianglesLoop, ← hlen]
  | succ k ih =>
    intro n triangles hlen hidx hint
    have h0 := readIndex_ok position_indices n 0 (by omega) (by omega)
    have h1 := readIndex_ok position_indices n 1 (by omega) (by omega)
    have h2 := readIndex_ok position_indices n 2 (by omega) (by omega)
    have hn : n < triangles.length := by omega
    have hinc : n + 1 ≤ INT_MAX := by omega
    have hrec := ih (n + 1)
      (triangles.set n (builtTriangle mesh position_indices n))
      (by simp; omega) (by omega) (by omega)
    simp only [trianglesLoop, h0, h1, h2, vectorAtPut, hn, intIncrement, hinc, bind,
      Except.bind, if_true]
    rw [show CreateTriangle mesh
          { i0 := position_indices.getD (3 * n + 0) 0,
            i1 := position_indices.getD (3 * n + 1) 0,
            i2 := position_indices.getD (3 * n + 2) 0 }
          { i0 := 0, i1 := 0, i2 := 0 } { i0 := 0, i1 := 0, i2 := 0 } =
          builtTriangle mesh position_indices n from rfl, hrec,
        take_set_succ _ _ _ hn]
    simp [List.range'_succ]

theorem trianglesLoop_overflow {F : Type} (mesh : TriangleMesh F)
    (position_indices : List Nat) :
    ∀ (k n : Nat) (triangles : List (ShapePtr F)),
      triangles.length = n + k → 3 * (n + k) ≤ position_indices.length →
      0 < k → INT_MAX + 1 < 3 * (n + k) →
      trianglesLoop mesh position_indices n k triangles = .error Fault.signedOverflow := by
  intro k
  induction k with
  | zero => intro n triangles _ _ hk _; exact absurd hk (Nat.lt_irrefl 0)
  | succ k ih =>
    intro n triangles hlen hidx _ hbig
    by_cases hfit : 3 * n + 2 ≤ INT_MAX
    · have h0 := readIndex_ok position_indices n 0 (by omega) (by omega)
      have h1 := readIndex_ok position_indices n 1 (by omega) (by omega)
      have h2 := readIndex_ok position_indices n 2 (by omega) (by omega)
      have hn : n < triangles.length := by omega
      have hinc : n + 1 ≤ INT_MAX := by omega
      have hrec := ih (n + 1)
        (triangles.set n (builtTriangle mesh position_indices n))
        (by simp; omega) (by omega) (by omega) (by omega)
      simp only [trianglesLoop, h0, h1, h2, vectorAtPut, hn, intIncrement, hinc, bind,
        Except.bind, if_true]
      exact hrec
    · by_cases hfit0 : 3 * n + 0 ≤ INT_MAX
      · have h0 := readIndex_ok position_indices n 0 hfit0 (by omega)
        by_cases hfit1 : 3 * n + 1 ≤ INT_MAX
        · have h1 := readIndex_ok position_indices n 1 hfit1 (by omega)
          have h2 := readIndex_overflow position_indices n 2 (by omega)
          simp only [trianglesLoop, h0, h1, h2, bind, Except.bind]
        · have h1 := readIndex_overflow position_indices n 1 (by omega)
          simp only [trianglesLoop, h0, h1, bind, Except.bind]
      · have h0 := readIndex_overflow position_indices n 0 (by omega)
        simp only [trianglesLoop, h0, bind, Except.bind]

theorem CreateTriangles_mesh_ok {F : Type}
    (num_faces num_positions num_normals num_texcoords : Nat)
    (positions : List F) (normals texcoords : Option (List F))
    (hlen : 3 * num_positions ≤ positions.length) :
    ∃ pts : List (Point3f F),
      CreateTriangles.mesh num_faces num_positions num_normals num_texcoords
          positions normals texcoords =
        .ok { num_faces := num_faces, num_positions := num_positions,
              num_normals := num_normals, num_texcoords := num_texcoords,
              positions := pts, normals := none, texcoords := none } ∧
      pts.length = num_positions ∧
      ∀ (i : Nat) (hi : i < num_positions),
        pts[i]? = some { x := positions[3 * i], y := positions[3 * i + 1],
                         z := positions[3 * i + 2] } := by
  obtain ⟨pts, hpts, hl, hget⟩ := positionsLoop_ok positions num_positions 0 (by omega)
  refine ⟨pts, ?_, hl, ?_⟩
  · simp only [CreateTriangles.mesh, hpts, bind, Except.bind, pure, Except.pure,
      CreateTriangleMesh]
  · intro i hi
    have := hget i hi
    simpa using this

theorem CreateTriangles_ok {F : Type} (triangles : List (ShapePtr F))
    (num_faces num_positions num_normals num_texcoords : Nat)
    (positions : List F) (normals texcoords : Option (List F))
    (position_indices normal_indices texcoord_indices : List Nat)
    (hpos : 3 * num_positions ≤ positions.length)
    (hidx : 3 * num_faces ≤ position_indices.length)
    (hint : 3 * num_faces ≤ INT_MAX + 1) :
    ∃ mesh : TriangleMesh F,
      CreateTriangles.mesh num_faces num_positions num_normals num_texcoords
          positions normals texcoords = .ok mesh ∧
      CreateTriangles triangles num_faces num_positions num_normals num_texcoords
          positions normals texcoords position_indices normal_indices texcoord_indices =
        .ok ((List.range num_faces).map (builtTriangle mesh position_indices)) := by
  obtain ⟨pts, hmesh, _, _⟩ := CreateTriangles_mesh_ok num_faces num_positions num_normals
    num_texcoords positions normals texcoords hpos
  refine ⟨_, hmesh, ?_⟩
  have hloop := trianglesLoop_ok
    { num_faces := num_faces, num_positions := num_positions,
      num_normals := num_normals, num_texcoords := num_texcoords,
      positions := pts, normals := none, texcoords := none }
    position_indices num_faces 0
    (List.replicate num_faces none) (by simp) (by omega) (by omega)
  simp only [CreateTriangles, hmesh, bind, Except.bind, hloop, List.take_zero, List.nil_append,
    List.range_eq_range']

theorem builtTriangle_getD {F : Type} (mesh : TriangleMesh F) (position_indices : List Nat)
    (n : Nat) (h : 3 * n + 2 < position_indices.length) :
    builtTriangle mesh position_indices n =
      some { mesh := mesh,
             p_idx := { i0 := position_indices[3 * n], i1 := position_indices[3 * n + 1],
                        i2 := position_indices[3 * n + 2] },
             n_idx := { i0 := 0, i1 := 0, i2 := 0 },
             t_idx := { i0 := 0, i1 := 0, i2 := 0 } } := by
  have h0 : 3 * n < position_indices.length := by omega
  have h1 : 3 * n + 1 < position_indices.length := by omega
  simp [builtTriangle, CreateTriangle, List.getD_eq_getElem?_getD,
    List.getElem?_eq_getElem h0, List.getElem?_eq_getElem h1, List.getElem?_eq_getElem h]

theorem trianglesLoop_mesh {F : Type} (mesh : TriangleMesh F) (position_indices : List Nat) :
    ∀ (k n : Nat) (triangles out : List (ShapePtr F)),
      trianglesLoop mesh position_indices n k triangles = .ok out →
      ∀ tri : Triangle F, some tri ∈ out → some tri ∈ triangles ∨ tri.mesh = mesh := by
  intro k
  induction k with
  | zero =>
    intro n triangles out h tri htri
    simp only [trianglesLoop, Except.ok.injEq] at h
    exact Or.inl (h ▸ htri)
  | succ k ih =>
    intro n triangles out h tri htri
    simp only [trianglesLoop, bind, Except.bind] at h
    cases h0 : readIndex position_indices n 0 with
    | error e => simp [h0] at h
    | ok p0 =>
      cases h1 : readIndex position_indices n 1 with
      | error e => simp [h0, h1] at h
      | ok p1 =>
        cases h2 : readIndex position_indices n 2 with
        | error e => simp [h0, h1, h2] at h
        | ok p2 =>
          simp only [h0, h1, h2, vectorAtPut, intIncrement] at h
          by_cases hn : n < triangles.length
          · by_cases hinc : n + 1 ≤ INT_MAX
            · simp only [hn, hinc, if_true] at h
              rcases ih _ _ _ h tri htri with hmem | hmesh
              · rcases List.mem_or_eq_of_mem_set hmem with hold | hnew
                · exact Or.inl hold
                · right
                  simp only [CreateTriangle, Option.some.injEq] at hnew
                  rw [hnew]
              · exact Or.inr hmesh
            · simp [hn, hinc] at h
          · simp [hn] at h

theorem CreateTriangles_overflow {F : Type} (triangles : List (ShapePtr F))
    (num_faces num_positions num_normals num_texcoords : Nat)
    (positions : List F) (normals texcoords : Option (List F))
    (position_indices normal_indices texcoord_indices : List Nat)
    (hpos : 3 * num_positions ≤ positions.length)
    (hidx : 3 * num_faces ≤ position_indices.length)
    (hint : INT_MAX + 1 < 3 * num_faces) :
    CreateTriangles triangles num_faces num_positions num_normals num_texcoords
        positions normals texcoords position_indices normal_indices texcoord_indices =
      .error Fault.signedOverflow := by
  obtain ⟨pts, hm, -, -⟩ := CreateTriangles_mesh_ok num_faces num_positions num_normals
    num_texcoords positions normals texcoords hpos
  simp only [CreateTriangles, hm, bind, Except.bind]
  exact trianglesLoop_overflow _ _ num_faces 0 _ (by simp) (by omega) (by omega) (by omega)

/-- C1 (the code leaves defined behaviour): `CreateTriangles` counts the faces with
`int n` and computes the index `3 * n + 2` in `int`.  For `num_faces = 715827883` and a
position index buffer of `3 * 715827883 = 2147483649` entries (one position, all indices 0),
the last iteration computes `3 * 715827882 + 2 = 2147483648 > INT_MAX`: the call has no
defined result, so it does not produce the `num_faces` triangles the claim states. -/
theorem C1_CreateTriangles_int_counter_overflows :
    3 * 715827883 ≤ (List.replicate 2147483649 0).length ∧
    CreateTriangles ([] : List (ShapePtr Int)) 715827883 1 0 0 [0, 0, 0] none none
      (List.replicate 2147483649 0) [] [] = .error Fault.signedOverflow := by
  have hidx : 3 * 715827883 ≤ (List.replicate 2147483649 (0 : Nat)).length := by
    rw [List.length_replicate]
  exact ⟨hidx, CreateTriangles_overflow _ _ _ _ _ _ _ _ _ _ _ (by decide) hidx
    (by unfold INT_MAX; omega)⟩

/-- C2: for every `num_positions` and every buffer `positions` of at least
`3 * num_positions` scalars, `CreateTriangles` builds a mesh with exactly `num_positions`
points, point `i` being `(positions[3i], positions[3i+1], positions[3i+2])`, and every
triangle a call returns refers to this mesh.  The mesh is a function of the arguments, so
two runs on the same buffers give the same positions. -/
theorem C2_mesh_positions_verbatim {F : Type}
    (num_faces num_positions num_normals num_texcoords : Nat)
    (positions : List F) (normals texcoords : Option (List F))
    (hlen : 3 * num_positions ≤ positions.length) :
    ∃ mesh : TriangleMesh F,
      CreateTriangles.mesh num_faces num_positions num_normals num_texcoords
          positions normals texcoords = .ok mesh ∧
      mesh.num_positions = num_positions ∧
      mesh.positions.length = num_positions ∧
      (∀ (i : Nat) (hi : i < num_positions),
        mesh.positions[i]? = some { x := positions[3 * i], y := positions[3 * i + 1],
                                    z := positions[3 * i + 2] }) ∧
      (∀ (triangles out : List (ShapePtr F))
          (position_indices normal_indices texcoord_indices : List Nat),
        CreateTriangles triangles num_faces num_positions num_normals num_texcoords
            positions normals texcoords position_indices normal_indices texcoord_indices =
          .ok out →
        ∀ tri : Triangle F, some tri ∈ out → tri.mesh = mesh) := by
  obtain ⟨pts, hmesh, hl, hget⟩ := CreateTriangles_mesh_ok num_faces num_positions
    num_normals num_texcoords positions normals texcoords hlen
  refine ⟨_, hmesh, rfl, hl, hget, ?_⟩
  intro triangles out position_indices normal_indices texcoord_indices hout tri htri
  simp only [CreateTriangles, hmesh, bind, Except.bind] at hout
  rcases trianglesLoop_mesh _ _ _ _ _ _ hout tri htri with hmem | h
  · simp at hmem
  · exact h

/-- C2 at three positions: the mesh holds the three points of the buffer, in order. -/
theorem C2_mesh_positions_verbatim_witness :
    3 * 3 ≤ [(0 : Int), 0, 0, 1, 0, 0, 0, 1, 0].length ∧
    ∃ mesh : TriangleMesh Int,
      CreateTriangles.mesh 1 3 0 0 [(0 : Int), 0, 0, 1, 0, 0, 0, 1, 0] none none = .ok mesh ∧
      mesh.positions.length = 3 ∧
      mesh.positions[2]? = some { x := 0, y := 1, z := 0 } := by
  refine ⟨by decide, ?_⟩
  obtain ⟨mesh, hm, _, hl, hget, _⟩ := C2_mesh_positions_verbatim (F := Int) 1 3 0 0
    [0, 0, 0, 1, 0, 0, 0, 1, 0] none none (by decide)
  exact ⟨mesh, hm, hl, by simpa using hget 2 (by decide)⟩

/-- C3 fails on the code: for one face with position indices `(0, 1, 2)` (and no normal or
UV index buffers) the triangle built carries `(0, 0, 0)`, not `(0, 1, 2)`, for its normal
corners and for its UV corners. -/
theorem C3_normal_uv_indices_differ_from_position_indices :
    ∃ tri : Triangle Int,
      CreateTriangles [] 1 3 0 0 [0, 0, 0, 1, 0, 0, 0, 1, 0] none none [0, 1, 2] [] [] =
        .ok [some tri] ∧
      tri.p_idx = { i0 := 0, i1 := 1, i2 := 2 } ∧
      tri.n_idx ≠ tri.p_idx ∧ tri.t_idx ≠ tri.p_idx :=
  ⟨_, rfl, rfl, by decide, by decide⟩

/-- C3 as amended: when the buffers are long enough and `3 * num_faces` is in the range of
the `int` counter, `CreateTriangles` returns `num_faces` triangles and, for every
`n < num_faces`, triangle `n` has the position indices `(idx[3n], idx[3n+1], idx[3n+2])` and
the placeholder `(0, 0, 0)` both as normal indices and as UV indices, whatever normal and UV
index buffers are passed (in particular empty ones). -/
theorem C3_normal_uv_indices_are_placeholder {F : Type} (triangles : List (ShapePtr F))
    (num_faces num_positions num_normals num_texcoords : Nat)
    (positions : List F) (normals texcoords : Option (List F))
    (position_indices normal_indices texcoord_indices : List Nat)
    (hpos : 3 * num_positions ≤ positions.length)
    (hidx : 3 * num_faces ≤ position_indices.length)
    (hint : 3 * num_faces ≤ INT_MAX + 1) :
    ∃ out : List (ShapePtr F),
      CreateTriangles triangles num_faces num_positions num_normals num_texcoords
          positions normals texcoords position_indices normal_indices texcoord_indices =
        .ok out ∧
      out.length = num_faces ∧
      ∀ (n : Nat) (hn : n < num_faces), ∃ tri : Triangle F,
        out[n]? = some (some tri) ∧
        tri.p_idx = { i0 := position_indices[3 * n], i1 := position_indices[3 * n + 1],
                      i2 := position_indices[3 * n + 2] } ∧
        tri.n_idx = { i0 := 0, i1 := 0, i2 := 0 } ∧
        tri.t_idx = { i0 := 0, i1 := 0, i2 := 0 } := by
  obtain ⟨mesh, _, hout⟩ := CreateTriangles_ok triangles num_faces num_positions num_normals
    num_texcoords positions normals texcoords position_indices normal_indices
    texcoord_indices hpos hidx hint
  refine ⟨_, hout, by simp, ?_⟩
  intro n hn
  have h2 : 3 * n + 2 < position_indices.length := by omega
  have hb := builtTriangle_getD mesh position_indices n h2
  refine ⟨{ mesh := mesh,
            p_idx := { i0 := position_indices[3 * n], i1 := position_indices[3 * n + 1],
                       i2 := position_indices[3 * n + 2] },
            n_idx := { i0 := 0, i1 := 0, i2 := 0 },
            t_idx := { i0 := 0, i1 := 0, i2 := 0 } }, ?_, rfl, rfl, rfl⟩
  simp [hn, hb]

/-- C3 as amended, at one face with position indices `(2, 1, 0)`. -/
theorem C3_normal_uv_indices_are_placeholder_witness :
    ∃ out : List (ShapePtr Int),
      CreateTriangles [] 1 3 0 0 [0, 0, 0, 1, 0, 0, 0, 1, 0] none none [2, 1, 0] [] [] =
        .ok out ∧
      ∃ tri : Triangle Int, out[0]? = some (some tri) ∧
        tri.p_idx = { i0 := 2, i1 := 1, i2 := 0 } ∧
        tri.n_idx = { i0 := 0, i1 := 0, i2 := 0 } ∧
        tri.t_idx = { i0 := 0, i1 := 0, i2 := 0 } := by
  obtain ⟨out, hout, _, h⟩ := C3_normal_uv_indices_are_placeholder (F := Int) [] 1 3 0 0
    [0, 0, 0, 1, 0, 0, 0, 1, 0] none none [2, 1, 0] [] [] (by decide) (by decide)
    (by decide)
  obtain ⟨tri, h0, hp, hn, ht⟩ := h 0 (by decide)
  exact ⟨out, hout, tri, h0, by simpa using hp, hn, ht⟩

theorem CreateTriangles_spec {F : Type} (triangles : List (ShapePtr F))
    (num_faces num_positions num_normals num_texcoords : Nat)
    (positions : List F) (normals texcoords : Option (List F))
    (position_indices normal_indices texcoord_indices : List Nat)
    (hpos : 3 * num_positions ≤ positions.length)
    (hidx : 3 * num_faces ≤ position_indices.length)
    (hint : 3 * num_faces ≤ INT_MAX + 1) :
    ∃ (mesh : TriangleMesh F) (out : List (ShapePtr F)),
      CreateTriangles.mesh num_faces num_positions num_normals num_texcoords
          positions normals texcoords = .ok mesh ∧
      mesh.num_faces = num_faces ∧ mesh.num_positions = num_positions ∧
      mesh.num_normals = num_normals ∧ mesh.num_texcoords = num_texcoords ∧
      CreateTriangles triangles num_faces num_positions num_normals num_texcoords
          positions normals texcoords position_indices normal_indices texcoord_indices =
        .ok out ∧
      out.length = num_faces ∧
      ∀ (n : Nat) (hn : n < num_faces),
        out[n]? = some (some
          { mesh := mesh,
            p_idx := { i0 := position_indices[3 * n], i1 := position_indices[3 * n + 1],
                       i2 := position_indices[3 * n + 2] },
            n_idx := { i0 := 0, i1 := 0, i2 := 0 },
            t_idx := { i0 := 0, i1 := 0, i2 := 0 } }) := by
  obtain ⟨pts, hmesh, _, _⟩ := CreateTriangles_mesh_ok num_faces num_positions num_normals
    num_texcoords positions normals texcoords hpos
  obtain ⟨mesh, hmesh1, hout⟩ := CreateTriangles_ok triangles num_faces num_positions
    num_normals num_texcoords positions normals texcoords position_indices normal_indices
    texcoord_indices hpos hidx hint
  have hm : mesh = { num_faces := num_faces, num_positions := num_positions,
                     num_normals := num_normals, num_texcoords := num_texcoords,
                     positions := pts, normals := none, texcoords := none } := by
    rw [hmesh] at hmesh1
    exact (Except.ok.inj hmesh1).symm
  refine ⟨mesh, _, hmesh1, by rw [hm], by rw [hm], by rw [hm], by rw [hm], hout, by simp, ?_⟩
  intro n hn
  have hb := builtTriangle_getD mesh position_indices n (by omega)
  simp [hn, hb]

/-- C4 fails on the code: for the arguments `ConstructSceneForNiepce` passes (no normals, no
UVs) and one face whose position indices `(0, 1, 2)` are all below the 3 positions, the
triangle built has normal index 0 and UV index 0, and neither is below the size 0 of the
array it refers to. -/
theorem C4_normal_uv_index_not_below_zero_size :
    (∀ v ∈ [0, 1, 2], v < 3) ∧
    ∃ tri : Triangle Int,
      CreateTriangles [] 1 3 0 0 [0, 0, 0, 1, 0, 0, 0, 1, 0] none none [0, 1, 2] [] [] =
        .ok [some tri] ∧
      ¬ tri.n_idx.i0 < tri.mesh.num_normals ∧ ¬ tri.t_idx.i0 < tri.mesh.num_texcoords :=
  ⟨by decide, _, rfl, by decide, by decide⟩

/-- C4 as amended: when all entries of the position index buffer are below `num_positions`
(the buffers being long enough and `3 * num_faces` in the range of the `int` counter), every
triangle `CreateTriangles` returns has its three position indices below the number of
positions of its mesh; its normal and UV indices are the placeholder 0, so they are below
the number of normals (of UVs) of the mesh exactly when that number is positive, which it is
not in the call made by `ConstructSceneForNiepce`. -/
theorem C4_position_indices_in_range {F : Type} (triangles : List (ShapePtr F))
    (num_faces num_positions num_normals num_texcoords : Nat)
    (positions : List F) (normals texcoords : Option (List F))
    (position_indices normal_indices texcoord_indices : List Nat)
    (hpos : 3 * num_positions ≤ positions.length)
    (hidx : 3 * num_faces ≤ position_indices.length)
    (hint : 3 * num_faces ≤ INT_MAX + 1)
    (hlt : ∀ v ∈ position_indices, v < num_positions) :
    ∃ out : List (ShapePtr F),
      CreateTriangles triangles num_faces num_positions num_normals num_texcoords
          positions normals texcoords position_indices normal_indices texcoord_indices =
        .ok out ∧
      out.length = num_faces ∧
      ∀ (n : Nat), n < num_faces → ∃ tri : Triangle F,
        out[n]? = some (some tri) ∧
        tri.mesh.num_positions = num_positions ∧
        tri.mesh.num_normals = num_normals ∧
        tri.mesh.num_texcoords = num_texcoords ∧
        (tri.p_idx.i0 < tri.mesh.num_positions ∧ tri.p_idx.i1 < tri.mesh.num_positions ∧
          tri.p_idx.i2 < tri.mesh.num_positions) ∧
        tri.n_idx = { i0 := 0, i1 := 0, i2 := 0 } ∧
        tri.t_idx = { i0 := 0, i1 := 0, i2 := 0 } ∧
        ((tri.n_idx.i0 < tri.mesh.num_normals ∧ tri.n_idx.i1 < tri.mesh.num_normals ∧
          tri.n_idx.i2 < tri.mesh.num_normals) ↔ 0 < num_normals) ∧
        ((tri.t_idx.i0 < tri.mesh.num_texcoords ∧ tri.t_idx.i1 < tri.mesh.num_texcoords ∧
          tri.t_idx.i2 < tri.mesh.num_texcoords) ↔ 0 < num_texcoords) := by
  obtain ⟨mesh, out, _, _, hnp, hnn, hnt, hout, hl, hget⟩ := CreateTriangles_spec triangles
    num_faces num_positions num_normals num_texcoords positions normals texcoords
    position_indices normal_indices texcoord_indices hpos hidx hint
  refine ⟨out, hout, hl, ?_⟩
  intro n hn
  have h0 : 3 * n < position_indices.length := by omega
  have h1 : 3 * n + 1 < position_indices.length := by omega
  have h2 : 3 * n + 2 < position_indices.length := by omega
  refine ⟨_, hget n hn, hnp, hnn, hnt, ?_, rfl, rfl, ?_, ?_⟩
  · simp only [hnp]
    exact ⟨hlt _ (List.getElem_mem h0), hlt _ (List.getElem_mem h1),
      hlt _ (List.getElem_mem h2)⟩
  · simp only [hnn]
    tauto
  · simp only [hnt]
    tauto

/-- C4 as amended, at one face with position indices `(0, 1, 2)` over 3 positions and no
normals: the position indices are in range, the normal index 0 is not. -/
theorem C4_position_indices_in_range_witness :
    ∃ out : List (ShapePtr Int),
      CreateTriangles [] 1 3 0 0 [0, 0, 0, 1, 0, 0, 0, 1, 0] none none [0, 1, 2] [] [] =
        .ok out ∧
      ∃ tri : Triangle Int, out[0]? = some (some tri) ∧
        tri.p_idx.i2 < tri.mesh.num_positions ∧
        ¬ (tri.n_idx.i0 < tri.mesh.num_normals ∧ tri.n_idx.i1 < tri.mesh.num_normals ∧
          tri.n_idx.i2 < tri.mesh.num_normals) := by
  obtain ⟨out, hout, _, h⟩ := C4_position_indices_in_range (F := Int) [] 1 3 0 0
    [0, 0, 0, 1, 0, 0, 0, 1, 0] none none [0, 1, 2] [] [] (by decide) (by decide)
    (by decide) (by decide)
  obtain ⟨tri, h0, _, _, _, hp, _, _, hn, _⟩ := h 0 (by decide)
  exact ⟨out, hout, tri, h0, hp.2.2, fun hlt => absurd (hn.mp hlt) (by decide)⟩

/-! ## Properties of `GetRenderableCamera` -/

theorem GetRenderableCamera_loop_found {P : Type} (before : List (CameraNode P))
    (camera : CameraNode P) (after : List (CameraNode P)) (dag : P)
    (hbefore : ∀ c ∈ before, c.renderable = false) (hcam : camera.renderable = true) :
    GetRenderableCamera.loop (before ++ camera :: after) dag =
      (MStatus.kSuccess, camera.dagPath, camera :: after) := by
  induction before with
  | nil => simp [GetRenderableCamera.loop, hcam]
  | cons b bs ih =>
    have hb : b.renderable = false := hbefore b (List.mem_cons_self _ _)
    have hbs : ∀ c ∈ bs, c.renderable = false :=
      fun c hc => hbefore c (List.mem_cons_of_mem _ hc)
    simp [GetRenderableCamera.loop, hb, ih hbs]

theorem GetRenderableCamera_loop_none {P : Type} (camera_nodes : List (CameraNode P)) (dag : P)
    (hall : ∀ c ∈ camera_nodes, c.renderable = false) :
    GetRenderableCamera.loop camera_nodes dag = (MStatus.kFailure, dag, []) := by
  induction camera_nodes with
  | nil => rfl
  | cons b bs ih =>
    have hb : b.renderable = false := hall b (List.mem_cons_self _ _)
    have hbs : ∀ c ∈ bs, c.renderable = false :=
      fun c hc => hall c (List.mem_cons_of_mem _ hc)
    simp [GetRenderableCamera.loop, hb, ih hbs]

theorem first_renderable_split {P : Type} (camera_nodes : List (CameraNode P))
    (h : ∃ c ∈ camera_nodes, c.renderable = true) :
    ∃ (before : List (CameraNode P)) (camera : CameraNode P) (after : List (CameraNode P)),
      camera_nodes = before ++ camera :: after ∧
      (∀ c ∈ before, c.renderable = false) ∧ camera.renderable = true := by
  induction camera_nodes with
  | nil =>
    obtain ⟨c, hc, _⟩ := h
    simp at hc
  | cons b bs ih =>
    by_cases hb : b.renderable = true
    · exact ⟨[], b, bs, rfl, by simp, hb⟩
    · have hbs : ∃ c ∈ bs, c.renderable = true := by
        obtain ⟨c, hc, hr⟩ := h
        rcases List.mem_cons.mp hc with heq | hmem
        · exact absurd (heq ▸ hr) hb
        · exact ⟨c, hmem, hr⟩
      obtain ⟨before, camera, after, heq, hbefore, hcam⟩ := ih hbs
      refine ⟨b :: before, camera, after, by simp [heq], ?_, hcam⟩
      intro c hc
      rcases List.mem_cons.mp hc with heq1 | hmem
      · rw [heq1]
        simpa using hb
      · exact hbefore c hmem

/-- C6: when some camera node of the enumeration has its `renderable` flag set,
`GetRenderableCamera` returns `kSuccess` and sets `dag` to the placement of the first such
node; the iterator still stands on that node when the function returns, so the nodes after
it are never visited, and the result is the same whatever nodes follow it. -/
theorem C6_first_renderable_camera_wins {P : Type} (camera_nodes : List (CameraNode P))
    (dag : P) (h : ∃ c ∈ camera_nodes, c.renderable = true) :
    ∃ (before : List (CameraNode P)) (camera : CameraNode P) (after : List (CameraNode P)),
      camera_nodes = before ++ camera :: after ∧
      (∀ c ∈ before, c.renderable = false) ∧ camera.renderable = true ∧
      GetRenderableCamera camera_nodes dag = (MStatus.kSuccess, camera.dagPath) ∧
      GetRenderableCamera.loop camera_nodes dag =
        (MStatus.kSuccess, camera.dagPath, camera :: after) ∧
      ∀ (later : List (CameraNode P)) (dag1 : P),
        GetRenderableCamera (before ++ camera :: later) dag1 =
          (MStatus.kSuccess, camera.dagPath) := by
  obtain ⟨before, camera, after, heq, hbefore, hcam⟩ := first_renderable_split camera_nodes h
  refine ⟨before, camera, after, heq, hbefore, hcam, ?_, ?_, ?_⟩
  · simp [GetRenderableCamera, heq,
      GetRenderableCamera_loop_found before camera after dag hbefore hcam]
  · rw [heq]
    exact GetRenderableCamera_loop_found before camera after dag hbefore hcam
  · intro later dag1
    simp [GetRenderableCamera,
      GetRenderableCamera_loop_found before camera later dag1 hbefore hcam]

/-- C6 at three cameras, the second and the third renderable: the second one is selected and
the iterator has not moved past it. -/
theorem C6_first_renderable_camera_wins_witness :
    ∃ (before : List (CameraNode Nat)) (camera : CameraNode Nat)
      (after : List (CameraNode Nat)),
      [({ renderable := false, dagPath := 10 } : CameraNode Nat),
        { renderable := true, dagPath := 20 }, { renderable := true, dagPath := 30 }] =
        before ++ camera :: after ∧
      GetRenderableCamera [({ renderable := false, dagPath := 10 } : CameraNode Nat),
        { renderable := true, dagPath := 20 }, { renderable := true, dagPath := 30 }] 0 =
        (MStatus.kSuccess, camera.dagPath) ∧
      GetRenderableCamera [({ renderable := false, dagPath := 10 } : CameraNode Nat),
        { renderable := true, dagPath := 20 }, { renderable := true, dagPath := 30 }] 0 =
        (MStatus.kSuccess, 20) := by
  obtain ⟨before, camera, after, heq, _, _, hres, _, _⟩ :=
    C6_first_renderable_camera_wins
      [({ renderable := false, dagPath := 10 } : CameraNode Nat),
        { renderable := true, dagPath := 20 }, { renderable := true, dagPath := 30 }] 0
      ⟨{ renderable := true, dagPath := 30 }, by simp, rfl⟩
  exact ⟨before, camera, after, heq, hres, rfl⟩

/-- C7: `GetRenderableCamera` returns `kFailure` if and only if no camera node of the
enumeration (the empty one included) has its `renderable` flag set, and in that case `dag`
keeps the value it had on entry. -/
theorem C7_failure_iff_no_renderable_camera {P : Type} (camera_nodes : List (CameraNode P))
    (dag : P) :
    ((GetRenderableCamera camera_nodes dag).1 = MStatus.kFailure ↔
      ∀ c ∈ camera_nodes, c.renderable = false) ∧
    ((GetRenderableCamera camera_nodes dag).1 = MStatus.kFailure →
      (GetRenderableCamera camera_nodes dag).2 = dag) := by
  have hnone : (∀ c ∈ camera_nodes, c.renderable = false) →
      GetRenderableCamera camera_nodes dag = (MStatus.kFailure, dag) := by
    intro hall
    simp [GetRenderableCamera, GetRenderableCamera_loop_none camera_nodes dag hall]
  have hfail : (GetRenderableCamera camera_nodes dag).1 = MStatus.kFailure →
      ∀ c ∈ camera_nodes, c.renderable = false := by
    intro hf
    by_contra hex
    have hsome : ∃ c ∈ camera_nodes, c.renderable = true := by
      simpa using hex
    obtain ⟨before, camera, after, heq, hbefore, hcam⟩ :=
      first_renderable_split camera_nodes hsome
    have hfound := GetRenderableCamera_loop_found before camera after dag hbefore hcam
    rw [heq] at hf
    simp [GetRenderableCamera, hfound] at hf
  refine ⟨⟨hfail, fun hall => by rw [hnone hall]⟩, ?_⟩
  intro hf
  rw [hnone (hfail hf)]

/-- C7 at the empty enumeration and at a single camera that is not renderable. -/
theorem C7_failure_iff_no_renderable_camera_witness :
    GetRenderableCamera ([] : List (CameraNode Nat)) 7 = (MStatus.kFailure, 7) ∧
    (GetRenderableCamera [({ renderable := false, dagPath := 10 } : CameraNode Nat)] 7).2
      = 7 := by
  have h := C7_failure_iff_no_renderable_camera
    [({ renderable := false, dagPath := 10 } : CameraNode Nat)] 7
  exact ⟨rfl, h.2 (h.1.mpr (by simp))⟩

/-! ## Properties of `GetResolution` -/

/-- C8: `GetResolution` returns exactly `(960, 540)` when the selection list of the lookup
of `defaultResolution` is empty; when the list has a first node, the result is the pair of
its `width` and `height` values, each reduced modulo `2^32`, and the default is not used. -/
theorem C8_resolution_default_and_lookup :
    GetResolution [] = (960, 540) ∧
    ∀ (node : ResolutionNode) (rest : List ResolutionNode),
      ((GetResolution (node :: rest)).1 : Int) = node.width % 4294967296 ∧
      ((GetResolution (node :: rest)).2 : Int) = node.height % 4294967296 ∧
      (GetResolution (node :: rest)).1 < 4294967296 ∧
      (GetResolution (node :: rest)).2 < 4294967296 := by
  refine ⟨rfl, ?_⟩
  intro node rest
  have hw : (0 : Int) ≤ node.width % 4294967296 := Int.emod_nonneg _ (by norm_num)
  have hh : (0 : Int) ≤ node.height % 4294967296 := Int.emod_nonneg _ (by norm_num)
  have hw1 : node.width % 4294967296 < 4294967296 := Int.emod_lt_of_pos _ (by norm_num)
  have hh1 : node.height % 4294967296 < 4294967296 := Int.emod_lt_of_pos _ (by norm_num)
  simp only [GetResolution, toUInt32, List.length_cons, gt_iff_lt, Nat.zero_lt_succ,
    dite_true, List.getElem_cons_zero]
  refine ⟨Int.toNat_of_nonneg hw, Int.toNat_of_nonneg hh, ?_, ?_⟩ <;> omega

/-! ## Reads past the end of the buffers -/

theorem trianglesLoop_out {F : Type} (mesh : TriangleMesh F) (position_indices : List Nat) :
    ∀ (k n : Nat) (triangles : List (ShapePtr F)),
      triangles.length = n + k → 0 < k → position_indices.length < 3 * (n + k) →
      3 * n ≤ position_indices.length → position_indices.length ≤ INT_MAX →
      trianglesLoop mesh position_indices n k triangles = .error Fault.readOutOfRange := by
  intro k
  induction k with
  | zero => intro n triangles _ hk _ _ _; exact absurd hk (Nat.lt_irrefl 0)
  | succ k ih =>
    intro n triangles hlen _ hshort hsofar hmax
    by_cases hin : 3 * n + 2 < position_indices.length
    · have h0 := readIndex_ok position_indices n 0 (by omega) (by omega)
      have h1 := readIndex_ok position_indices n 1 (by omega) (by omega)
      have h2 := readIndex_ok position_indices n 2 (by omega) (by omega)
      have hn : n < triangles.length := by omega
      have hinc : n + 1 ≤ INT_MAX := by omega
      have hrec := ih (n + 1)
        (triangles.set n (builtTriangle mesh position_indices n))
        (by simp; omega) (by omega) (by omega) (by omega) hmax
      simp only [trianglesLoop, h0, h1, h2, vectorAtPut, hn, intIncrement, hinc, bind,
        Except.bind, if_true]
      exact hrec
    · by_cases hin0 : 3 * n + 0 < position_indices.length
      · have h0 := readIndex_ok position_indices n 0 (by omega) hin0
        by_cases hin1 : 3 * n + 1 < position_indices.length
        · have h1 := readIndex_ok position_indices n 1 (by omega) hin1
          have h2 := readIndex_out position_indices n 2 (by omega) (by omega)
          simp only [trianglesLoop, h0, h1, h2, bind, Except.bind]
        · have h1 := readIndex_out position_indices n 1 (by omega) (by omega)
          simp only [trianglesLoop, h0, h1, bind, Except.bind]
      · have h0 := readIndex_out position_indices n 0 (by omega) (by omega)
        simp only [trianglesLoop, h0, bind, Except.bind]

theorem CreateTriangles_out {F : Type} (triangles : List (ShapePtr F))
    (num_faces num_positions num_normals num_texcoords : Nat)
    (positions : List F) (normals texcoords : Option (List F))
    (position_indices normal_indices texcoord_indices : List Nat)
    (hpos : 3 * num_positions ≤ positions.length)
    (hshort : position_indices.length < 3 * num_faces)
    (hmax : position_indices.length ≤ INT_MAX) :
    CreateTriangles triangles num_faces num_positions num_normals num_texcoords
        positions normals texcoords position_indices normal_indices texcoord_indices =
      .error Fault.readOutOfRange := by
  obtain ⟨pts, hm, -, -⟩ := CreateTriangles_mesh_ok num_faces num_positions num_normals
    num_texcoords positions normals texcoords hpos
  simp only [CreateTriangles, hm, bind, Except.bind]
  exact trianglesLoop_out _ _ num_faces 0 _ (by simp) (by omega) (by omega) (by omega) hmax

theorem memberIndices_length {F : Type} (inst : GeometryInstance F) :
    (memberIndices inst).length = indicesLength (inst.primitiveCount % UINT32_MOD) :=
  (inst.populateIndexBuffer (indicesLength (inst.primitiveCount % UINT32_MOD))).property

theorem memberPositions_length {F : Type} (inst : GeometryInstance F) :
    (memberPositions inst).length =
      positionsLength (inst.vertexCount % UINT32_MOD) inst.stride :=
  (inst.populateVertexBuffer
    (positionsLength (inst.vertexCount % UINT32_MOD) inst.stride)).property

/-- For `num_primitives = 1431655766` the product `3 * num_primitives` wraps to 2 in 32 bits:
the vector `indices` has 2 entries, and `CreateTriangles`, called with
`num_faces = 1431655766`, reads past its end. -/
theorem indices_wrap_at_large_primitive_count :
    indicesLength 1431655766 = 2 ∧
    (memberIndices manyPrimitives).length = 2 ∧
    memberTriangles manyPrimitives = .error Fault.readOutOfRange := by
  have hlen : (memberIndices manyPrimitives).length = 2 := memberIndices_length manyPrimitives
  have hpos : (memberPositions manyPrimitives).length = 9 :=
    memberPositions_length manyPrimitives
  refine ⟨rfl, hlen, ?_⟩
  unfold memberTriangles
  exact CreateTriangles_out _ _ _ _ _ _ _ _ _ _ _ (by rw [hpos]; decide)
    (by rw [hlen]; decide) (by rw [hlen]; decide)

/-- C9: for every set member, whatever primitive count the extractor reports (reduced to the
32-bit unsigned `num_primitives`), the vector `indices` that is allocated, populated by
`populateIndexBuffer` and passed to `CreateTriangles` as `position_indices` has length
exactly `3 * num_primitives` evaluated in 32-bit unsigned arithmetic, that is
`(3 * num_primitives) mod 2^32`. -/
theorem C9_index_buffer_length_is_product_mod_2_32 {F : Type} (inst : GeometryInstance F) :
    (memberIndices inst).length =
      (3 * (inst.primitiveCount % 4294967296)) % 4294967296 ∧
    (memberIndices inst).length < 4294967296 ∧
    memberTriangles inst =
      CreateTriangles [] (inst.primitiveCount % 4294967296)
        (inst.vertexCount % 4294967296) 0 0 (memberPositions inst) none none
        (memberIndices inst) [] [] := by
  have hlen := memberIndices_length inst
  simp only [indicesLength, UINT32_MOD] at hlen
  refine ⟨hlen, ?_, rfl⟩
  rw [hlen]
  exact Nat.mod_lt _ (by norm_num)

theorem readScalar_in_bounds_iff {F : Type} (positions : List F) (j : Nat) :
    readScalar positions j ≠ .error Fault.readOutOfRange ↔ j < positions.length := by
  by_cases h : j < positions.length
  · simp [readScalar_ok positions j h, h]
  · simp [readScalar_out positions j (by omega), h]

theorem triples_below_iff (count len : Nat) :
    (∀ i k : Nat, i < count → k < 3 → 3 * i + k < len) ↔ 3 * count ≤ len := by
  constructor
  · intro h
    cases count with
    | zero => omega
    | succ c =>
      have := h c 2 (by omega) (by omega)
      omega
  · intro h i k hi hk
    omega

theorem positionsLoop_out {F : Type} (positions : List F) :
    ∀ (k i : Nat), 3 * i ≤ positions.length → positions.length < 3 * (i + k) →
      positionsLoop positions i k = .error Fault.readOutOfRange := by
  intro k
  induction k with
  | zero => intro i h1 h2; omega
  | succ k ih =>
    intro i hsofar hshort
    by_cases hin : 3 * i + 2 < positions.length
    · have h0 := readScalar_ok positions (3 * i + 0) (by omega)
      have h1 := readScalar_ok positions (3 * i + 1) (by omega)
      have h2 := readScalar_ok positions (3 * i + 2) hin
      have hrec := ih (i + 1) (by omega) (by omega)
      simp only [positionsLoop, h0, h1, h2, hrec, bind, Except.bind]
    · by_cases hin0 : 3 * i + 0 < positions.length
      · have h0 := readScalar_ok positions (3 * i + 0) hin0
        by_cases hin1 : 3 * i + 1 < positions.length
        · have h1 := readScalar_ok positions (3 * i + 1) hin1
          have h2 := readScalar_out positions (3 * i + 2) (by omega)
          simp only [positionsLoop, h0, h1, h2, bind, Except.bind]
        · have h1 := readScalar_out positions (3 * i + 1) (by omega)
          simp only [positionsLoop, h0, h1, bind, Except.bind]
      · have h0 := readScalar_out positions (3 * i + 0) (by omega)
        simp only [positionsLoop, h0, bind, Except.bind]

/-- No length check on `positions`: with fewer than `3 * num_positions` scalars the call
reads past the end of the buffer, whatever the other arguments are. -/
theorem CreateTriangles_positions_short {F : Type} (triangles : List (ShapePtr F))
    (num_faces num_positions num_normals num_texcoords : Nat)
    (positions : List F) (normals texcoords : Option (List F))
    (position_indices normal_indices texcoord_indices : List Nat)
    (hshort : positions.length < 3 * num_positions) :
    CreateTriangles triangles num_faces num_positions num_normals num_texcoords
        positions normals texcoords position_indices normal_indices texcoord_indices =
      .error Fault.readOutOfRange := by
  have h := positionsLoop_out positions num_positions 0 (by omega) (by omega)
  simp only [CreateTriangles, CreateTriangles.mesh, h, bind, Except.bind]

/-- The reads of the code, in the range of the `int` counter: when `3 * num_faces ≤ 2^31`,
all the reads `positions[3i+k]` and `position_indices[3n+k]` succeed if and only if the two
buffers are long enough. -/
theorem reads_succeed_iff_buffers_long_enough {F : Type} (num_faces num_positions : Nat)
    (positions : List F) (position_indices : List Nat)
    (hint : 3 * num_faces ≤ INT_MAX + 1) :
    ((∀ i k : Nat, i < num_positions → k < 3 →
          readScalar positions (3 * i + k) ≠ .error Fault.readOutOfRange) ∧
        (∀ n k : Nat, n < num_faces → k < 3 →
          readIndex position_indices n k =
            .ok (position_indices.getD (3 * n + k) 0))) ↔
      (3 * num_positions ≤ positions.length ∧ 3 * num_faces ≤ position_indices.length) := by
  constructor
  · rintro ⟨hp, hi⟩
    refine ⟨(triples_below_iff _ _).mp
      (fun i k hi1 hk => (readScalar_in_bounds_iff _ _).mp (hp i k hi1 hk)), ?_⟩
    by_contra hshort
    have hfaces : 0 < num_faces := by omega
    have hread := hi (num_faces - 1) 2 (by omega) (by omega)
    rw [readIndex_out position_indices (num_faces - 1) 2 (by omega) (by omega)] at hread
    exact Except.noConfusion hread
  · rintro ⟨hp, hi⟩
    refine ⟨fun i k hi1 hk => (readScalar_in_bounds_iff _ _).mpr (by omega), ?_⟩
    intro n k hn hk
    exact readIndex_ok position_indices n k (by omega) (by omega)

/-- C10 (the code leaves defined behaviour, by the defect of C1): with
`num_faces = 715827883`, one position, a buffer `positions` of 3 scalars and a position
index buffer of `3 * 715827883 = 2147483649` entries, both conditions of the claim hold,
yet the read `position_indices[3 * n + 2]` of the iteration `n = 715827882` is not an
in-bounds read: its index `2147483648` does not fit the `int` in which the code computes
it, and the call has no defined result. -/
theorem C10_read_index_overflows_with_long_buffers :
    3 * 1 ≤ [(5 : Int), 6, 7].length ∧
    3 * 715827883 ≤ (List.replicate 2147483649 0).length ∧
    715827882 < 715827883 ∧
    readIndex (List.replicate 2147483649 0) 715827882 2 = .error Fault.signedOverflow ∧
    CreateTriangles ([] : List (ShapePtr Int)) 715827883 1 0 0 [5, 6, 7] none none
      (List.replicate 2147483649 0) [] [] = .error Fault.signedOverflow := by
  have hidx : 3 * 715827883 ≤ (List.replicate 2147483649 (0 : Nat)).length := by
    rw [List.length_replicate]
  exact ⟨by decide, hidx, by omega,
    readIndex_overflow _ 715827882 2 (by unfold INT_MAX; omega),
    CreateTriangles_overflow _ _ _ _ _ _ _ _ _ _ _ (by decide) hidx
      (by unfold INT_MAX; omega)⟩

/-! ## Properties of `ConstructSceneForNiepce` -/

theorem indicesLength_small (num_primitives : Nat) (h : 3 * num_primitives ≤ INT_MAX + 1) :
    indicesLength num_primitives = 3 * num_primitives := by
  unfold indicesLength UINT32_MOD
  unfold INT_MAX at h
  omega

theorem memberTriangles_ok {F : Type} (inst : GeometryInstance F) (h : extractionFits inst) :
    ∃ triangles : List (ShapePtr F), memberTriangles inst = .ok triangles ∧
      triangles.length = inst.primitiveCount % UINT32_MOD := by
  obtain ⟨hpos, hint⟩ := h
  obtain ⟨mesh, out, _, _, _, _, _, hout, hl, _⟩ := CreateTriangles_spec ([] : List (ShapePtr F))
    (inst.primitiveCount % UINT32_MOD) (inst.vertexCount % UINT32_MOD) 0 0
    (memberPositions inst) none none (memberIndices inst) [] []
    (by rw [memberPositions_length]; exact hpos)
    (by rw [memberIndices_length, indicesLength_small _ hint]) hint
  exact ⟨out, hout, hl⟩

theorem processMember_failure {F : Type} (inst : GeometryInstance F)
    (h : inst.status = MStatus.kFailure) : processMember inst = .ok none := by
  simp [processMember, NIEPCE_CHECK_MSTATUS, h]

theorem processMember_success {F : Type} (inst : GeometryInstance F)
    (triangles : List (ShapePtr F)) (h : inst.status = MStatus.kSuccess)
    (ht : memberTriangles inst = .ok triangles) :
    processMember inst = .ok (some triangles) := by
  simp [processMember, NIEPCE_CHECK_MSTATUS, h, ht, bind, Except.bind, pure, Except.pure]

theorem membersLoop_spec {F : Type} :
    ∀ (members : List (GeometryInstance F)) (m : Nat) (built : List (List (ShapePtr F))),
      m + members.length ≤ INT_MAX →
      (∀ inst ∈ members, inst.status = MStatus.kSuccess → extractionFits inst) →
      ∃ conv : List (List (ShapePtr F)),
        membersLoop m members built = .ok (built ++ conv) ∧
        List.Forall₂ (fun inst triangles => memberTriangles inst = .ok triangles ∧
            triangles.length = inst.primitiveCount % UINT32_MOD)
          (members.filter (fun inst => decide (inst.status = MStatus.kSuccess))) conv := by
  intro members
  induction members with
  | nil =>
    intro m built _ _
    exact ⟨[], by simp [membersLoop], by simp⟩
  | cons inst rest ih =>
    intro m built hm hfits
    have hinc : m + 1 ≤ INT_MAX := by simp only [List.length_cons] at hm; omega
    have hrest : ∀ i ∈ rest, i.status = MStatus.kSuccess → extractionFits i :=
      fun i hi => hfits i (List.mem_cons_of_mem _ hi)
    cases hs : inst.status with
    | kFailure =>
      obtain ⟨conv, hconv, hrel⟩ := ih (m + 1) built
        (by simp only [List.length_cons] at hm; omega) hrest
      refine ⟨conv, ?_, ?_⟩
      · simp only [membersLoop, processMember_failure inst hs, intIncrement, hinc, bind,
          Except.bind, if_true]
        exact hconv
      · simpa [List.filter_cons, hs] using hrel
    | kSuccess =>
      obtain ⟨triangles, ht, hl⟩ := memberTriangles_ok inst
        (hfits inst (List.mem_cons_self _ _) hs)
      obtain ⟨conv, hconv, hrel⟩ := ih (m + 1) (built ++ [triangles])
        (by simp only [List.length_cons] at hm; omega) hrest
      refine ⟨triangles :: conv, ?_, ?_⟩
      · simp only [membersLoop, processMember_success inst triangles hs ht, intIncrement,
          hinc, bind, Except.bind, if_true]
        rw [hconv]
        simp
      · simpa [List.filter_cons, hs] using And.intro (And.intro ht hl) hrel

theorem enginesLoop_spec {F : Type} :
    ∀ (scene : List (ShadingEngine F)) (built : List (List (ShapePtr F))),
      (∀ engine ∈ scene, engine.members.length ≤ INT_MAX) →
      (∀ inst ∈ sceneInstances scene, inst.status = MStatus.kSuccess → extractionFits inst) →
      ∃ conv : List (List (ShapePtr F)),
        enginesLoop scene built = .ok (built ++ conv) ∧
        List.Forall₂ (fun inst triangles => memberTriangles inst = .ok triangles ∧
            triangles.length = inst.primitiveCount % UINT32_MOD)
          ((sceneInstances scene).filter
            (fun inst => decide (inst.status = MStatus.kSuccess))) conv := by
  intro scene
  induction scene with
  | nil =>
    intro built _ _
    exact ⟨[], by simp [enginesLoop], by simp [sceneInstances]⟩
  | cons engine rest ih =>
    intro built hlen hfits
    have hsplit : sceneInstances (engine :: rest) = engine.members ++ sceneInstances rest := by
      simp [sceneInstances]
    rw [hsplit] at hfits
    obtain ⟨conv1, hconv1, hrel1⟩ := membersLoop_spec engine.members 0 built
      (by have := hlen engine (List.mem_cons_self _ _); omega)
      (fun i hi => hfits i (List.mem_append_left _ hi))
    obtain ⟨conv2, hconv2, hrel2⟩ := ih (built ++ conv1)
      (fun e he => hlen e (List.mem_cons_of_mem _ he))
      (fun i hi => hfits i (List.mem_append_right _ hi))
    refine ⟨conv1 ++ conv2, ?_, ?_⟩
    · simp only [enginesLoop, hconv1, bind, Except.bind]
      rw [hconv2, List.append_assoc]
    · rw [hsplit, List.filter_append]
      exact List.rel_append hrel1 hrel2

theorem filter_status_length {F : Type} (instances : List (GeometryInstance F)) :
    (instances.filter (fun inst => decide (inst.status = MStatus.kSuccess))).length +
      (instances.filter (fun inst => decide (inst.status = MStatus.kFailure))).length =
      instances.length := by
  induction instances with
  | nil => rfl
  | cons inst rest ih =>
    cases hs : inst.status <;> simp [List.filter_cons, hs] <;> omega

/-- C5 fails on the code: `ConstructSceneForNiepce` returns nothing but its status.  Two
scenes of three set members each, the second member failing in both, whose first members
have different triangles (position indices `(0, 1, 2)` and `(2, 1, 0)`), return the same
value `kSuccess`: the triangles built for the members that do not fail, listed here from
the local vector of each iteration, are no part of the output of the pass. -/
theorem C5_pass_output_holds_no_triangles :
    ConstructSceneForNiepce (sampleScene [0, 1, 2] [1, 2, 0]) = .ok MStatus.kSuccess ∧
    ConstructSceneForNiepce (sampleScene [2, 1, 0] [1, 2, 0]) =
      ConstructSceneForNiepce (sampleScene [0, 1, 2] [1, 2, 0]) ∧
    ConstructSceneForNiepce.built (sampleScene [0, 1, 2] [1, 2, 0]) =
      .ok [[some { mesh := sampleMesh, p_idx := ⟨0, 1, 2⟩, n_idx := ⟨0, 0, 0⟩,
                   t_idx := ⟨0, 0, 0⟩ }],
           [some { mesh := sampleMesh, p_idx := ⟨1, 2, 0⟩, n_idx := ⟨0, 0, 0⟩,
                   t_idx := ⟨0, 0, 0⟩ }]] ∧
    ConstructSceneForNiepce.built (sampleScene [2, 1, 0] [1, 2, 0]) =
      .ok [[some { mesh := sampleMesh, p_idx := ⟨2, 1, 0⟩, n_idx := ⟨0, 0, 0⟩,
                   t_idx := ⟨0, 0, 0⟩ }],
           [some { mesh := sampleMesh, p_idx := ⟨1, 2, 0⟩, n_idx := ⟨0, 0, 0⟩,
                   t_idx := ⟨0, 0, 0⟩ }]] ∧
    ConstructSceneForNiepce.built (sampleScene [2, 1, 0] [1, 2, 0]) ≠
      ConstructSceneForNiepce.built (sampleScene [0, 1, 2] [1, 2, 0]) := by
  refine ⟨rfl, rfl, rfl, rfl, ?_⟩
  intro h
  have h1 := Except.ok.inj h
  revert h1
  decide

/-- C5 as amended (the statement `NIEPCE_CHECK_MSTATUS` being modelled from the spec): for
every scene whose set members, over all shading engines, contain exactly one for which the
geometry extractor fails (each engine having at most `INT_MAX` members and each extraction
that succeeds being of a size `CreateTriangles` handles), the pass is not aborted: it returns
`kSuccess`, the failing member is skipped, and `CreateTriangles` is run for each of the
other `N - 1` members, in order, each result being the `num_primitives` triangles of the
vector local to its iteration.  The status is all the pass returns. -/
theorem C5_failing_instance_is_skipped {F : Type} (scene : List (ShadingEngine F))
    (hlen : ∀ engine ∈ scene, engine.members.length ≤ INT_MAX)
    (hfits : ∀ inst ∈ sceneInstances scene,
      inst.status = MStatus.kSuccess → extractionFits inst)
    (hone : ((sceneInstances scene).filter
      (fun inst => decide (inst.status = MStatus.kFailure))).length = 1) :
    ConstructSceneForNiepce scene = .ok MStatus.kSuccess ∧
    ∃ built : List (List (ShapePtr F)),
      ConstructSceneForNiepce.built scene = .ok built ∧
      built.length + 1 = (sceneInstances scene).length ∧
      List.Forall₂ (fun inst triangles => memberTriangles inst = .ok triangles ∧
          triangles.length = inst.primitiveCount % UINT32_MOD)
        ((sceneInstances scene).filter
          (fun inst => decide (inst.status = MStatus.kSuccess))) built := by
  obtain ⟨conv, hconv, hrel⟩ := enginesLoop_spec scene [] hlen hfits
  rw [List.nil_append] at hconv
  have hcount := filter_status_length (sceneInstances scene)
  have hsame := hrel.length_eq
  refine ⟨?_, conv, hconv, by omega, hrel⟩
  simp only [ConstructSceneForNiepce, hconv, bind, Except.bind, pure, Except.pure]

/-- C5 as amended, at a scene of two shading engines and three set members, the second of
which fails: the pass returns `kSuccess` and two vectors of triangles were built. -/
theorem C5_failing_instance_is_skipped_witness :
    ConstructSceneForNiepce (sampleScene [0, 1, 2] [1, 2, 0]) = .ok MStatus.kSuccess ∧
    ∃ built : List (List (ShapePtr Int)),
      ConstructSceneForNiepce.built (sampleScene [0, 1, 2] [1, 2, 0]) = .ok built ∧
      built.length + 1 = 3 := by
  obtain ⟨hstatus, built, hbuilt, hl, _⟩ := C5_failing_instance_is_skipped
    (sampleScene [0, 1, 2] [1, 2, 0])
    (by simp [sampleScene, INT_MAX])
    (by simp [sampleScene, sceneInstances, extractionFits, triangleMember, failingMember,
      positionsLength, UINT32_MOD, INT_MAX])
    (by simp [sampleScene, sceneInstances, triangleMember, failingMember, List.filter_cons])
  exact ⟨hstatus, built, hbuilt, hl⟩

end plugins
